import Mathlib

/-!
Verification of the gorfb RFB (VNC) server against its specification.

The Go sources (`support.go`, `gorfb.go`) are shallowly embedded here:
byte buffers and byte streams become `List Nat` (each element a byte value),
Go `uint8/uint16/uint32/uint64` arithmetic becomes `Nat` arithmetic with
explicit `% 2^w` truncation where the code truncates, Go `int` becomes `Int`
(conversions from unsigned types zero-extend, as Go does on 64-bit targets),
and socket I/O becomes explicit consumption of an input byte list and
production of an output byte list.  Fixed-count Go `for` loops are unrolled
or turned into structural recursion.
-/

namespace Gorfb

/-! ## Byte codec (support.go) -/

/-- Embedding of `SetUint16` (support.go): big-endian write of 2 bytes at
`pos`; a no-op when fewer than 2 bytes are available at `pos`.  The two
loop iterations (`buf[1-i+pos] = byte(val); val >>= 8`) are unrolled. -/
def SetUint16 (buf : List Nat) (pos val : Nat) : List Nat :=
  if pos + 2 > buf.length then buf
  else ((buf.set (1 + pos) (val % 256)).set (0 + pos) (val / 256 % 256))

/-- Embedding of `SetUint32` (support.go): big-endian write of 4 bytes at
`pos`; a no-op when fewer than 4 bytes are available at `pos`. -/
def SetUint32 (buf : List Nat) (pos val : Nat) : List Nat :=
  if pos + 4 > buf.length then buf
  else ((((buf.set (3 + pos) (val % 256)).set
      (2 + pos) (val / 256 % 256)).set
      (1 + pos) (val / 256 ^ 2 % 256)).set
      (0 + pos) (val / 256 ^ 3 % 256))

/-- Embedding of `SetUint64` (support.go): big-endian write of 8 bytes at
`pos`; a no-op when fewer than 8 bytes are available at `pos`. -/
def SetUint64 (buf : List Nat) (pos val : Nat) : List Nat :=
  if pos + 8 > buf.length then buf
  else ((((((((buf.set (7 + pos) (val % 256)).set
      (6 + pos) (val / 256 % 256)).set
      (5 + pos) (val / 256 ^ 2 % 256)).set
      (4 + pos) (val / 256 ^ 3 % 256)).set
      (3 + pos) (val / 256 ^ 4 % 256)).set
      (2 + pos) (val / 256 ^ 5 % 256)).set
      (1 + pos) (val / 256 ^ 6 % 256)).set
      (0 + pos) (val / 256 ^ 7 % 256))

/-- Embedding of `GetUint16` (support.go): big-endian read of 2 bytes at
`pos`; returns 0 when fewer than 2 bytes are available at `pos`.  The fold
`val = (val << 8) + buf[pos+i]` is unrolled. -/
def GetUint16 (buf : List Nat) (pos : Nat) : Nat :=
  if pos + 2 > buf.length then 0
  else buf.getD pos 0 * 256 + buf.getD (pos + 1) 0

/-- Embedding of `GetUint32` (support.go): big-endian read of 4 bytes at
`pos`; returns 0 when fewer than 4 bytes are available at `pos`. -/
def GetUint32 (buf : List Nat) (pos : Nat) : Nat :=
  if pos + 4 > buf.length then 0
  else ((buf.getD pos 0 * 256 + buf.getD (pos + 1) 0) * 256 +
      buf.getD (pos + 2) 0) * 256 + buf.getD (pos + 3) 0

/-- Embedding of `GetUint64` (support.go): big-endian read of 8 bytes at
`pos`; returns 0 when fewer than 8 bytes are available at `pos`. -/
def GetUint64 (buf : List Nat) (pos : Nat) : Nat :=
  if pos + 8 > buf.length then 0
  else ((((((buf.getD pos 0 * 256 + buf.getD (pos + 1) 0) * 256 +
      buf.getD (pos + 2) 0) * 256 + buf.getD (pos + 3) 0) * 256 +
      buf.getD (pos + 4) 0) * 256 + buf.getD (pos + 5) 0) * 256 +
      buf.getD (pos + 6) 0) * 256 + buf.getD (pos + 7) 0

/-! ## Closed forms for the codec on explicit buffers -/

theorem SetUint16_cons0 (a b v : Nat) (t : List Nat) :
    SetUint16 (a :: b :: t) 0 v = v / 256 % 256 :: v % 256 :: t := by
  simp only [SetUint16, List.length_cons]
  rw [if_neg (by omega)]
  simp

theorem SetUint32_cons0 (a b c d v : Nat) (t : List Nat) :
    SetUint32 (a :: b :: c :: d :: t) 0 v =
      v / 256 ^ 3 % 256 :: v / 256 ^ 2 % 256 :: v / 256 % 256 :: v % 256 :: t := by
  simp only [SetUint32, List.length_cons]
  rw [if_neg (by omega)]
  simp

theorem SetUint64_cons0 (a b c d e f g h v : Nat) (t : List Nat) :
    SetUint64 (a :: b :: c :: d :: e :: f :: g :: h :: t) 0 v =
      v / 256 ^ 7 % 256 :: v / 256 ^ 6 % 256 :: v / 256 ^ 5 % 256 ::
      v / 256 ^ 4 % 256 :: v / 256 ^ 3 % 256 :: v / 256 ^ 2 % 256 ::
      v / 256 % 256 :: v % 256 :: t := by
  simp only [SetUint64, List.length_cons]
  rw [if_neg (by omega)]
  set_option maxRecDepth 4000 in simp

theorem GetUint16_cons0 (x y : Nat) (t : List Nat) :
    GetUint16 (x :: y :: t) 0 = x * 256 + y := by
  simp only [GetUint16, List.length_cons]
  rw [if_neg (by omega)]
  simp

theorem GetUint32_cons0 (x y z w : Nat) (t : List Nat) :
    GetUint32 (x :: y :: z :: w :: t) 0 =
      ((x * 256 + y) * 256 + z) * 256 + w := by
  simp only [GetUint32, List.length_cons]
  rw [if_neg (by omega)]
  simp

theorem GetUint64_cons0 (x0 x1 x2 x3 x4 x5 x6 x7 : Nat) (t : List Nat) :
    GetUint64 (x0 :: x1 :: x2 :: x3 :: x4 :: x5 :: x6 :: x7 :: t) 0 =
      ((((((x0 * 256 + x1) * 256 + x2) * 256 + x3) * 256 +
        x4) * 256 + x5) * 256 + x6) * 256 + x7 := by
  simp only [GetUint64, List.length_cons]
  rw [if_neg (by omega)]
  simp

theorem SetUint16_cons_succ (a v pos : Nat) (l : List Nat) :
    SetUint16 (a :: l) (pos + 1) v = a :: SetUint16 l pos v := by
  simp only [SetUint16, List.length_cons]
  by_cases h : pos + 2 > l.length
  · rw [if_pos (by omega), if_pos h]
  · rw [if_neg (by omega), if_neg h,
      show 1 + (pos + 1) = (1 + pos) + 1 from by omega,
      show 0 + (pos + 1) = (0 + pos) + 1 from by omega,
      List.set_cons_succ, List.set_cons_succ]

theorem SetUint32_cons_succ (a v pos : Nat) (l : List Nat) :
    SetUint32 (a :: l) (pos + 1) v = a :: SetUint32 l pos v := by
  simp only [SetUint32, List.length_cons]
  by_cases h : pos + 4 > l.length
  · rw [if_pos (by omega), if_pos h]
  · rw [if_neg (by omega), if_neg h,
      show 3 + (pos + 1) = (3 + pos) + 1 from by omega,
      show 2 + (pos + 1) = (2 + pos) + 1 from by omega,
      show 1 + (pos + 1) = (1 + pos) + 1 from by omega,
      show 0 + (pos + 1) = (0 + pos) + 1 from by omega,
      List.set_cons_succ, List.set_cons_succ, List.set_cons_succ,
      List.set_cons_succ]

/-! ## Round-trip helper lemmas -/

theorem roundtrip16 (buf : List Nat) (v : Nat) (hl : 2 ≤ buf.length)
    (hv : v < 2 ^ 16) : GetUint16 (SetUint16 buf 0 v) 0 = v := by
  rcases buf with _ | ⟨a0, buf⟩
  · simp at hl
  rcases buf with _ | ⟨a1, buf⟩
  · simp at hl
  rw [SetUint16_cons0, GetUint16_cons0]
  omega

theorem roundtrip32 (buf : List Nat) (v : Nat) (hl : 4 ≤ buf.length)
    (hv : v < 2 ^ 32) : GetUint32 (SetUint32 buf 0 v) 0 = v := by
  rcases buf with _ | ⟨a0, buf⟩
  · simp at hl
  rcases buf with _ | ⟨a1, buf⟩
  · simp at hl
  rcases buf with _ | ⟨a2, buf⟩
  · simp at hl
  rcases buf with _ | ⟨a3, buf⟩
  · simp at hl
  rw [SetUint32_cons0, GetUint32_cons0]
  omega

theorem roundtrip64 (buf : List Nat) (v : Nat) (hl : 8 ≤ buf.length)
    (hv : v < 2 ^ 64) : GetUint64 (SetUint64 buf 0 v) 0 = v := by
  rcases buf with _ | ⟨a0, buf⟩
  · simp at hl
  rcases buf with _ | ⟨a1, buf⟩
  · simp at hl
  rcases buf with _ | ⟨a2, buf⟩
  · simp at hl
  rcases buf with _ | ⟨a3, buf⟩
  · simp at hl
  rcases buf with _ | ⟨a4, buf⟩
  · simp at hl
  rcases buf with _ | ⟨a5, buf⟩
  · simp at hl
  rcases buf with _ | ⟨a6, buf⟩
  · simp at hl
  rcases buf with _ | ⟨a7, buf⟩
  · simp at hl
  rw [SetUint64_cons0, GetUint64_cons0]
  omega

/-! ## Claim theorems C7, C9 -/

/-- C7: For every n in {16, 32, 64}, every byte buffer of length at least
n/8, and every unsigned value v of width n, writing v at position 0 with
SetUintN and then reading position 0 with GetUintN returns v (big-endian
put/get round-trip at offset 0). -/
theorem setUint_getUint_roundtrip (buf : List Nat) (v : Nat) :
    (2 ≤ buf.length → v < 2 ^ 16 → GetUint16 (SetUint16 buf 0 v) 0 = v) ∧
    (4 ≤ buf.length → v < 2 ^ 32 → GetUint32 (SetUint32 buf 0 v) 0 = v) ∧
    (8 ≤ buf.length → v < 2 ^ 64 → GetUint64 (SetUint64 buf 0 v) 0 = v) :=
  ⟨roundtrip16 buf v, roundtrip32 buf v, roundtrip64 buf v⟩

/-- Witness for C7: the round trip evaluated on a concrete buffer and value. -/
theorem setUint_getUint_roundtrip_witness :
    GetUint16 (SetUint16 [9, 9, 9, 9, 9, 9, 9, 9] 0 513) 0 = 513 ∧
    GetUint32 (SetUint32 [9, 9, 9, 9, 9, 9, 9, 9] 0 66051) 0 = 66051 ∧
    GetUint64 (SetUint64 [9, 9, 9, 9, 9, 9, 9, 9] 0 72057594037927937) 0 =
      72057594037927937 :=
  ⟨(setUint_getUint_roundtrip [9, 9, 9, 9, 9, 9, 9, 9] 513).1 (by decide) (by decide),
   (setUint_getUint_roundtrip [9, 9, 9, 9, 9, 9, 9, 9] 66051).2.1 (by decide) (by decide),
   (setUint_getUint_roundtrip [9, 9, 9, 9, 9, 9, 9, 9] 72057594037927937).2.2
     (by decide) (by norm_num)⟩

/-- C9: out-of-range puts are no-ops and out-of-range gets return zero,
for each of the three widths; the codec never touches an index outside the
buffer (the embedded operations are total and, under the guard, only read
or write indices below the buffer length). -/
theorem setUint_getUint_out_of_bounds (buf : List Nat) (pos v : Nat) :
    (pos + 2 > buf.length → SetUint16 buf pos v = buf ∧ GetUint16 buf pos = 0) ∧
    (pos + 4 > buf.length → SetUint32 buf pos v = buf ∧ GetUint32 buf pos = 0) ∧
    (pos + 8 > buf.length → SetUint64 buf pos v = buf ∧ GetUint64 buf pos = 0) := by
  refine ⟨fun h => ⟨?_, ?_⟩, fun h => ⟨?_, ?_⟩, fun h => ⟨?_, ?_⟩⟩ <;>
    simp [SetUint16, GetUint16, SetUint32, GetUint32, SetUint64, GetUint64, h]

/-- Witness for C9: a 3-byte buffer with operations at position 2. -/
theorem setUint_getUint_out_of_bounds_witness :
    (SetUint16 [7, 8, 9] 2 513 = [7, 8, 9] ∧ GetUint16 [7, 8, 9] 2 = 0) ∧
    (SetUint32 [7, 8, 9] 2 513 = [7, 8, 9] ∧ GetUint32 [7, 8, 9] 2 = 0) ∧
    (SetUint64 [7, 8, 9] 2 513 = [7, 8, 9] ∧ GetUint64 [7, 8, 9] 2 = 0) :=
  ⟨(setUint_getUint_out_of_bounds [7, 8, 9] 2 513).1 (by decide),
   (setUint_getUint_out_of_bounds [7, 8, 9] 2 513).2.1 (by decide),
   (setUint_getUint_out_of_bounds [7, 8, 9] 2 513).2.2 (by decide)⟩

/-! ## DES key preparation (gorfb.go) -/

/-- The loop body of `fixDesKeyByte` (gorfb.go): `n` iterations of
`newval <<= 1; newval += val & 1; val >>= 1` on byte-valued `newval`. -/
def fixDesKeyByteLoop : Nat → Nat → Nat → Nat
  | 0, newval, _ => newval
  | n + 1, newval, val =>
      fixDesKeyByteLoop n ((newval * 2 % 256 + val % 2) % 256) (val / 2)

/-- Embedding of `fixDesKeyByte` (gorfb.go): mirror the bit order of one
byte. -/
def fixDesKeyByte (val : Nat) : Nat := fixDesKeyByteLoop 8 0 val

set_option maxRecDepth 4000 in
/-- C8: bit mirroring is an involution on bytes. -/
theorem fixDesKeyByte_involution (b : Nat) (hb : b < 256) :
    fixDesKeyByte (fixDesKeyByte b) = b := by
  revert b hb
  decide

/-- Witness for C8: the involution evaluated at byte 0x25. -/
theorem fixDesKeyByte_involution_witness :
    37 < 256 ∧ fixDesKeyByte (fixDesKeyByte 37) = 37 :=
  ⟨by decide, fixDesKeyByte_involution 37 (by decide)⟩

/-- Embedding of Go `copy(dst, src)`: the result list after copying
`min (len src) (len dst)` bytes from `src` onto the front of `dst`. -/
def goCopy (dst src : List Nat) : List Nat :=
  src.take (min src.length dst.length) ++ dst.drop (min src.length dst.length)

/-- Embedding of `fixDesKey` (gorfb.go).  A Go string is represented by its
byte sequence (`[]byte(key)`).  The 8-byte zero buffer receives the first
`min 8 (len key)` bytes of the key, and every byte is then bit-mirrored in
place. -/
def fixDesKey (key : List Nat) : List Nat :=
  let buf := List.replicate 8 0
  let buf := if key.length ≤ 8 then goCopy buf key else goCopy buf (key.take 8)
  buf.map fixDesKeyByte

theorem goCopy_replicate (m : Nat) (k : List Nat) :
    goCopy (List.replicate m 0) k = (List.range m).map (fun i => k.getD i 0) := by
  induction k generalizing m with
  | nil =>
    simp [goCopy, List.getD, List.map_const']
  | cons a k ih =>
    cases m with
    | zero => simp [goCopy]
    | succ m =>
      simp only [goCopy, List.length_cons, List.length_replicate,
        Nat.succ_min_succ, List.take_succ_cons, List.replicate_succ,
        List.drop_succ_cons, List.cons_append]
      rw [List.range_succ_eq_map, List.map_cons, List.map_map]
      have htail := ih m
      simp only [goCopy, List.length_replicate] at htail
      rw [htail]
      simp [Function.comp]

theorem getD_take (l : List Nat) (n i d : Nat) (h : i < n) :
    (l.take n).getD i d = l.getD i d := by
  simp [List.getD_eq_getElem?_getD, List.getElem?_take, h]

/-- C6: fixDesKey returns exactly 8 bytes: the first min(8, length) bytes
of the password, right-padded with zero bytes to length 8 when shorter and
truncated to 8 bytes when longer, each byte with its bit order reversed. -/
theorem fixDesKey_spec (key : List Nat) :
    (fixDesKey key).length = 8 ∧
    fixDesKey key = (List.range 8).map (fun i => fixDesKeyByte (key.getD i 0)) := by
  have h : fixDesKey key =
      (List.range 8).map (fun i => fixDesKeyByte (key.getD i 0)) := by
    by_cases hk : key.length ≤ 8
    · simp only [fixDesKey, List.length_replicate, if_pos hk]
      rw [goCopy_replicate, List.map_map]
      rfl
    · simp only [fixDesKey, List.length_replicate, if_neg hk]
      rw [goCopy_replicate, List.map_map]
      refine List.map_congr_left fun i hi => ?_
      have hi8 : i < 8 := List.mem_range.mp hi
      simp [Function.comp, List.getD_eq_getElem?_getD, List.getElem?_take, hi8]
  exact ⟨by rw [h]; simp, h⟩

/-! ## Data model (gorfb.go) -/

/-- Embedding of the `PixelFormat` struct (gorfb.go); the unsigned integer
fields become `Nat`. -/
structure PixelFormat where
  BitsPerPixel : Nat
  Depth : Nat
  BigEndian : Nat
  TrueColor : Nat
  RedMax : Nat
  GreenMax : Nat
  BlueMax : Nat
  RedShift : Nat
  GreenShift : Nat
  BlueShift : Nat
  deriving DecidableEq

/-- Embedding of the `RFBServer` configuration struct (gorfb.go).  Go `int`
fields become `Int`; the handler interface value is represented only by its
presence (`some ()` for a non-nil handler, `none` for nil), which is all
that `StartServer` inspects. -/
structure RFBServer where
  Port : String
  Width : Int
  Height : Int
  PixelFormat : PixelFormat
  BufferName : String
  Handler : Option Unit
  Authenticate : Bool
  AuthText : String
  deriving DecidableEq

/-- Outcome of the validation prefix of `StartServer` (gorfb.go): either a
configuration error returned before any attempt to bind the TCP listener,
or the point where `net.Listen` is reached, with the (port-defaulted)
configuration it is reached with. -/
inductive StartOutcome
  | configError (msg : String)
  | bind (rfb : RFBServer)
  deriving DecidableEq

/-- The validation checks of `StartServer` (gorfb.go) after the port
defaulting, in source order. -/
def validateChecks (rfb : RFBServer) : StartOutcome :=
  if rfb.Authenticate ∧ rfb.AuthText.length = 0 then
    .configError "For authentication a authentication string must be provided!"
  else if rfb.Width ≤ 0 ∨ rfb.Height ≤ 0 then
    .configError "Width and Height must be provided in RFBServer and they must be positive values!"
  else if rfb.Handler = none then
    .configError "A handler must be provided!"
  else if rfb.PixelFormat.BitsPerPixel ≠ 8 ∧ rfb.PixelFormat.BitsPerPixel ≠ 16 ∧
      rfb.PixelFormat.BitsPerPixel ≠ 24 ∧ rfb.PixelFormat.BitsPerPixel ≠ 32 then
    .configError "Only 8, 16, 24 and 32 bits per pixel allowed"
  else if rfb.PixelFormat.TrueColor = 1 ∧
      (rfb.PixelFormat.RedMax = 0 ∨ rfb.PixelFormat.GreenMax = 0 ∨
       rfb.PixelFormat.BlueMax = 0) then
    .configError "Provide maximum values for red, green and blue in the PixelFormat structure"
  else if rfb.PixelFormat.TrueColor = 1 ∧
      (rfb.PixelFormat.RedShift = rfb.PixelFormat.GreenShift ∨
       rfb.PixelFormat.RedShift = rfb.PixelFormat.BlueShift ∨
       rfb.PixelFormat.GreenShift = rfb.PixelFormat.BlueShift) then
    .configError "None of the shifts can be the same!"
  else
    .bind rfb

/-- Embedding of `StartServer` (gorfb.go) up to the `net.Listen` call: the
port defaulting followed by the validation checks. -/
def StartServer (rfb : RFBServer) : StartOutcome :=
  validateChecks (if rfb.Port = "" then { rfb with Port := "5900" } else rfb)

/-- The §4.7 validation predicate as the specification states it: width or
height nonpositive, handler missing, authenticate with empty auth text,
bits per pixel outside 8/16/24/32, or true colour with a zero channel
maximum or two equal channel shifts. -/
def invalidConfig (rfb : RFBServer) : Prop :=
  rfb.Width ≤ 0 ∨ rfb.Height ≤ 0 ∨ rfb.Handler = none ∨
  (rfb.Authenticate ∧ rfb.AuthText = "") ∨
  rfb.PixelFormat.BitsPerPixel ∉ ([8, 16, 24, 32] : List Nat) ∨
  (rfb.PixelFormat.TrueColor = 1 ∧
    (rfb.PixelFormat.RedMax = 0 ∨ rfb.PixelFormat.GreenMax = 0 ∨
     rfb.PixelFormat.BlueMax = 0 ∨
     rfb.PixelFormat.RedShift = rfb.PixelFormat.GreenShift ∨
     rfb.PixelFormat.RedShift = rfb.PixelFormat.BlueShift ∨
     rfb.PixelFormat.GreenShift = rfb.PixelFormat.BlueShift))

instance (rfb : RFBServer) : Decidable (invalidConfig rfb) := by
  unfold invalidConfig
  infer_instance

theorem string_length_zero_iff (s : String) : s.length = 0 ↔ s = "" := by
  cases s with
  | mk data =>
    constructor
    · intro h
      have hd : data = [] := List.length_eq_zero.mp h
      simp [hd]
    · intro h
      rw [h]
      rfl

theorem validateChecks_spec (rfb : RFBServer) :
    ((∃ msg, validateChecks rfb = .configError msg) ↔ invalidConfig rfb) ∧
    (¬ invalidConfig rfb → validateChecks rfb = .bind rfb) := by
  have hlen := string_length_zero_iff rfb.AuthText
  unfold validateChecks invalidConfig
  simp only [List.mem_cons, List.not_mem_nil, or_false]
  split_ifs with h1 h2 h3 h4 h5 h6
  · refine ⟨⟨fun _ => ?_, fun _ => ⟨_, rfl⟩⟩, fun hn => absurd ?_ hn⟩ <;>
      exact Or.inr (Or.inr (Or.inr (Or.inl ⟨h1.1, hlen.mp h1.2⟩)))
  · refine ⟨⟨fun _ => ?_, fun _ => ⟨_, rfl⟩⟩, fun hn => absurd ?_ hn⟩ <;>
      exact h2.elim Or.inl (fun h => Or.inr (Or.inl h))
  · refine ⟨⟨fun _ => ?_, fun _ => ⟨_, rfl⟩⟩, fun hn => absurd ?_ hn⟩ <;>
      exact Or.inr (Or.inr (Or.inl h3))
  · refine ⟨⟨fun _ => ?_, fun _ => ⟨_, rfl⟩⟩, fun hn => absurd ?_ hn⟩ <;>
      exact Or.inr (Or.inr (Or.inr (Or.inr (Or.inl
        (fun hm => hm.elim h4.1 (fun hm => hm.elim h4.2.1
          (fun hm => hm.elim h4.2.2.1 h4.2.2.2)))))))
  · refine ⟨⟨fun _ => ?_, fun _ => ⟨_, rfl⟩⟩, fun hn => absurd ?_ hn⟩ <;>
      exact Or.inr (Or.inr (Or.inr (Or.inr (Or.inr
        ⟨h5.1, h5.2.elim Or.inl (fun h => h.elim (fun h => Or.inr (Or.inl h))
          (fun h => Or.inr (Or.inr (Or.inl h))))⟩))))
  · refine ⟨⟨fun _ => ?_, fun _ => ⟨_, rfl⟩⟩, fun hn => absurd ?_ hn⟩ <;>
      exact Or.inr (Or.inr (Or.inr (Or.inr (Or.inr
        ⟨h6.1, h6.2.elim (fun h => Or.inr (Or.inr (Or.inr (Or.inl h))))
          (fun h => h.elim
            (fun h => Or.inr (Or.inr (Or.inr (Or.inr (Or.inl h)))))
            (fun h => Or.inr (Or.inr (Or.inr (Or.inr (Or.inr h))))))⟩))))
  · refine ⟨⟨?_, ?_⟩, fun _ => rfl⟩
    · rintro ⟨msg, hmsg⟩
      exact absurd hmsg (by simp)
    · intro hinv
      exfalso
      rcases hinv with h | h | h | h | h | h
      · exact h2 (Or.inl h)
      · exact h2 (Or.inr h)
      · exact h3 h
      · exact h1 ⟨h.1, hlen.mpr h.2⟩
      · exact h4 ⟨fun e => h (Or.inl e), fun e => h (Or.inr (Or.inl e)),
          fun e => h (Or.inr (Or.inr (Or.inl e))),
          fun e => h (Or.inr (Or.inr (Or.inr e)))⟩
      · rcases h.2 with hh | hh | hh | hh | hh | hh
        · exact h5 ⟨h.1, Or.inl hh⟩
        · exact h5 ⟨h.1, Or.inr (Or.inl hh)⟩
        · exact h5 ⟨h.1, Or.inr (Or.inr hh)⟩
        · exact h6 ⟨h.1, Or.inl hh⟩
        · exact h6 ⟨h.1, Or.inr (Or.inl hh)⟩
        · exact h6 ⟨h.1, Or.inr (Or.inr hh)⟩

theorem invalidConfig_port (rfb : RFBServer) (p : String) :
    invalidConfig { rfb with Port := p } ↔ invalidConfig rfb := by
  simp [invalidConfig]

/-- C4: a configuration failing §4.7 validation makes `StartServer` return
an error before any attempt to bind the TCP listener, and a configuration
violating none of the checks reaches the bind with an empty port replaced
by the default "5900" rather than rejected. -/
theorem startServer_validation (rfb : RFBServer) :
    ((∃ msg, StartServer rfb = .configError msg) ↔ invalidConfig rfb) ∧
    (¬ invalidConfig rfb →
      StartServer rfb =
        .bind { rfb with Port := if rfb.Port = "" then "5900" else rfb.Port }) := by
  unfold StartServer
  by_cases hp : rfb.Port = ""
  · rw [if_pos hp, if_pos hp]
    have base := validateChecks_spec { rfb with Port := "5900" }
    rw [invalidConfig_port] at base
    exact base
  · rw [if_neg hp, if_neg hp]
    have base := validateChecks_spec rfb
    exact base

/-- Witness for C4: an invalid configuration (zero width) is rejected, and
a fully valid configuration with an empty port reaches the bind with port
"5900". -/
theorem startServer_validation_witness :
    (∃ msg,
      StartServer
        { Port := "", Width := 0, Height := 480,
          PixelFormat := ⟨32, 24, 0, 1, 255, 255, 255, 16, 8, 0⟩,
          BufferName := "demo", Handler := some (), Authenticate := false,
          AuthText := "" } = .configError msg) ∧
    StartServer
        { Port := "", Width := 640, Height := 480,
          PixelFormat := ⟨32, 24, 0, 1, 255, 255, 255, 16, 8, 0⟩,
          BufferName := "demo", Handler := some (), Authenticate := false,
          AuthText := "" } =
      .bind
        { Port := "5900", Width := 640, Height := 480,
          PixelFormat := ⟨32, 24, 0, 1, 255, 255, 255, 16, 8, 0⟩,
          BufferName := "demo", Handler := some (), Authenticate := false,
          AuthText := "" } :=
  ⟨(startServer_validation _).1.mpr (by unfold invalidConfig; tauto),
   (startServer_validation _).2 (by unfold invalidConfig; simp)⟩

/-! ## Emission API (gorfb.go) -/

/-- Go conversion `uint16(x)` for `x : int`: two's-complement truncation
to 16 bits, always in `[0, 65536)`. -/
def goUint16 (x : Int) : Nat := (x % 65536).toNat

/-- Embedding of Go `copy(dst[pos:], src)` viewed as a transformation of
the whole of `dst`. -/
def copyAt (dst : List Nat) (pos : Nat) (src : List Nat) : List Nat :=
  dst.take pos ++ goCopy (dst.drop pos) src

/-- Embedding of the `RFBRectangle` struct (gorfb.go): Go `int` bounds and
the raw pixel bytes. -/
structure RFBRectangle where
  X : Int
  Y : Int
  Width : Int
  Height : Int
  Buffer : List Nat
  deriving DecidableEq

/-- The per-rectangle body written by the loop of `SendRectangles`
(gorfb.go): a fresh `12 + len(Buffer)` zero buffer receiving the four u16
bounds, the u32 Raw encoding 0 at offset 8, and the pixel bytes copied in
at offset 12. -/
def buildRect (rect : RFBRectangle) : List Nat :=
  let tmpbuf := List.replicate (12 + rect.Buffer.length) 0
  let tmpbuf := SetUint16 tmpbuf 0 (goUint16 rect.X)
  let tmpbuf := SetUint16 tmpbuf 2 (goUint16 rect.Y)
  let tmpbuf := SetUint16 tmpbuf 4 (goUint16 rect.Width)
  let tmpbuf := SetUint16 tmpbuf 6 (goUint16 rect.Height)
  let tmpbuf := SetUint32 tmpbuf 8 0
  copyAt tmpbuf 12 rect.Buffer

/-- Embedding of `SendRectangles` (gorfb.go): the full byte sequence the
function writes to the connection — the 4-byte header (tag 0, pad, u16
count) followed by each rectangle body, in order. -/
def SendRectangles (rects : List RFBRectangle) : List Nat :=
  let tmpbuf := List.replicate 4 0
  let tmpbuf := tmpbuf.set 0 0
  let tmpbuf := SetUint16 tmpbuf 2 (rects.length % 65536)
  tmpbuf ++ (rects.map buildRect).flatten

/-- The §4.3 wire form of one Raw rectangle as the specification states
it: a 12-byte header (big-endian u16 x, y, width, height, then u32
encoding 0 for Raw) followed by the pixel bytes unchanged. -/
def rectWire (rect : RFBRectangle) : List Nat :=
  [goUint16 rect.X / 256, goUint16 rect.X % 256,
   goUint16 rect.Y / 256, goUint16 rect.Y % 256,
   goUint16 rect.Width / 256, goUint16 rect.Width % 256,
   goUint16 rect.Height / 256, goUint16 rect.Height % 256,
   0, 0, 0, 0] ++ rect.Buffer

theorem goUint16_lt (x : Int) : goUint16 x < 65536 := by
  unfold goUint16
  have h1 : 0 ≤ x % 65536 := Int.emod_nonneg x (by norm_num)
  have h2 : x % 65536 < 65536 := Int.emod_lt_of_pos x (by norm_num)
  omega

theorem buildRect_eq (rect : RFBRectangle) : buildRect rect = rectWire rect := by
  have hdiv : ∀ v : Nat, v < 65536 → v / 256 % 256 = v / 256 := fun v hv =>
    Nat.mod_eq_of_lt (by omega)
  unfold buildRect rectWire
  rw [List.replicate_add]
  simp only [show List.replicate 12 (0 : Nat) =
      [0, 0, 0, 0, 0, 0, 0, 0, 0, 0, 0, 0] from rfl, List.cons_append,
    List.nil_append]
  simp only [SetUint16_cons_succ, SetUint16_cons0, SetUint32_cons_succ,
    SetUint32_cons0]
  rw [hdiv _ (goUint16_lt rect.X), hdiv _ (goUint16_lt rect.Y),
    hdiv _ (goUint16_lt rect.Width), hdiv _ (goUint16_lt rect.Height)]
  simp only [copyAt, goCopy, List.take_succ_cons, List.take_zero,
    List.drop_succ_cons, List.drop_zero, List.length_replicate,
    Nat.min_self, List.take_length, List.drop_replicate, Nat.sub_self,
    List.replicate_zero, List.append_nil, List.cons_append,
    List.nil_append]
  norm_num

/-- C5: SendRectangles writes tag byte 0, one zero pad byte, the count as
u16, then for each rectangle in order a 12-byte header (u16 x, y, w, h and
u32 encoding 0 for Raw) followed by its pixel bytes unchanged; evaluated
also on the concrete single-rectangle example of the spec. -/
theorem sendRectangles_wire :
    (∀ rects : List RFBRectangle, SendRectangles rects =
      [0, 0, rects.length % 65536 / 256, rects.length % 256] ++
        (rects.map rectWire).flatten) ∧
    SendRectangles [⟨0, 0, 2, 1, [170, 187, 204, 221]⟩] =
      [0, 0, 0, 1,
       0, 0, 0, 0, 0, 2, 0, 1, 0, 0, 0, 0,
       170, 187, 204, 221] := by
  have main : ∀ rects : List RFBRectangle, SendRectangles rects =
      [0, 0, rects.length % 65536 / 256, rects.length % 256] ++
        (rects.map rectWire).flatten := by
    intro rects
    unfold SendRectangles
    simp only [show (List.replicate 4 (0 : Nat)).set 0 0 = [0, 0, 0, 0] from rfl]
    simp only [SetUint16_cons_succ, SetUint16_cons0]
    rw [Nat.mod_eq_of_lt (show rects.length % 65536 / 256 < 256 by omega),
      Nat.mod_mod_of_dvd rects.length (by norm_num)]
    simp only [List.cons_append, List.nil_append]
    have hmap : rects.map buildRect = rects.map rectWire :=
      List.map_congr_left fun r _ => buildRect_eq r
    rw [hmap]
  refine ⟨main, ?_⟩
  rw [main]
  norm_num [rectWire, goUint16]
  decide

/-! ## Security handshake (gorfb.go) -/

/-- The byte sequence of a Go string (valid for the ASCII strings used
here). -/
def strBytes (s : String) : List Nat := s.data.map Char.toNat

/-- The `AUTH_FAIL` constant (gorfb.go) as its ASCII bytes. -/
def AUTH_FAIL : List Nat := strBytes "Authentication Failure"

/-- Embedding of `agreeSecurity` (gorfb.go), for the part after the two
security-type bytes have been sent and the client's selection byte read.
Returns the full byte transcript written to the client and the returned
success flag.  I/O is resolved as: `challenge` is the 16 random bytes
`rand.Read` places in `buf[:16]`, `clientSel` the selection byte the
client sent, `response` the 16 bytes read back from the client.  The DES
block cipher obtained from Go's `crypto/des` (an external library) is
passed in as `cipher`, where `cipher key block` is the 8-byte ECB
encryption of `block` under `key`; `agreeSecurity` keys it with
`fixDesKey authText` and encrypts the two challenge halves independently.
The 30-byte scratch buffer `buf` is modelled explicitly, including the
client selection byte read into `buf[0]` and the challenge generated over
`buf[:16]`. -/
def agreeSecurity (authenticate : Bool) (authText : List Nat)
    (cipher : List Nat → List Nat → List Nat)
    (challenge : List Nat) (clientSel : Nat) (response : List Nat) :
    List Nat × Bool :=
  let secType : Nat := if authenticate then 2 else 1
  let buf : List Nat :=
    clientSel :: secType :: List.replicate (8 + AUTH_FAIL.length - 2) 0
  if authenticate then
    let buf := challenge.take 16 ++ buf.drop 16
    let bk := fixDesKey authText
    let buf3 := cipher bk (buf.take 8) ++ cipher bk ((buf.drop 8).take 8)
    if response ≠ buf3 then
      ([1, secType] ++ challenge.take 16 ++
        copyAt (SetUint32 (SetUint32 buf 0 1) 4 AUTH_FAIL.length) 8 AUTH_FAIL,
       false)
    else
      ([1, secType] ++ challenge.take 16 ++ (SetUint32 buf 0 0).take 4, true)
  else
    ([1, secType] ++ (SetUint32 buf 0 0).take 4, true)

theorem SetUint32_zero_eq (buf : List Nat) (v : Nat) (h : 4 ≤ buf.length) :
    SetUint32 buf 0 v = v / 256 ^ 3 % 256 :: v / 256 ^ 2 % 256 ::
      v / 256 % 256 :: v % 256 :: buf.drop 4 := by
  rcases buf with _ | ⟨a0, buf⟩
  · simp at h
  rcases buf with _ | ⟨a1, buf⟩
  · simp at h
  rcases buf with _ | ⟨a2, buf⟩
  · simp at h
  rcases buf with _ | ⟨a3, buf⟩
  · simp at h
  rw [SetUint32_cons0]
  simp

set_option maxRecDepth 8000 in
/-- C3: with authentication on, a client response differing from the
DES-ECB encryption (under the key derived from the auth text by
fixDesKey) of the two 8-byte challenge halves makes the server write
SecurityResult 1, the u32 length 22, and the ASCII bytes of
"Authentication Failure", returning failure (the connection is closed
without entering Running); a matching response yields the u32 zero
SecurityResult, as does authenticate = false. -/
theorem agreeSecurity_spec (cipher : List Nat → List Nat → List Nat)
    (authText challenge response : List Nat) (clientSel : Nat)
    (hc : challenge.length = 16) (hr : response.length = 16) :
    agreeSecurity true authText cipher challenge clientSel response =
      (if response = cipher (fixDesKey authText) (challenge.take 8) ++
          cipher (fixDesKey authText) (challenge.drop 8)
       then ([1, 2] ++ challenge ++ [0, 0, 0, 0], true)
       else ([1, 2] ++ challenge ++
         ([0, 0, 0, 1, 0, 0, 0, 22] ++ AUTH_FAIL), false)) ∧
    agreeSecurity false authText cipher challenge clientSel response =
      ([1, 1, 0, 0, 0, 0], true) := by
  have htake : challenge.take 16 = challenge := by
    rw [← hc]
    exact List.take_length _
  have hAF : AUTH_FAIL.length = 22 := rfl
  have hdrop : (clientSel :: 2 :: List.replicate (8 + AUTH_FAIL.length - 2) 0).drop 16 =
      List.replicate 14 0 := by
    rw [hAF]
    norm_num [List.drop_succ_cons, List.drop_replicate]
  constructor
  · simp only [agreeSecurity, if_true, hdrop, htake]
    have hbuf8 : (challenge ++ List.replicate 14 0).take 8 = challenge.take 8 := by
      rw [List.take_append_eq_append_take]
      simp [hc]
    have hbufd8 : (challenge ++ List.replicate 14 0).drop 8 =
        challenge.drop 8 ++ List.replicate 14 0 := by
      rw [List.drop_append_eq_append_drop]
      simp [hc]
    have hdt8 : (challenge.drop 8 ++ List.replicate 14 0).take 8 = challenge.drop 8 := by
      rw [List.take_append_eq_append_take]
      have h8 : (challenge.drop 8).length = 8 := by
        simp [hc]
      rw [h8, Nat.sub_self, List.take_zero, List.append_nil]
      exact List.take_of_length_le (by simp [hc])
    have hlenbuf : (challenge ++ List.replicate 14 0).length = 30 := by
      simp [hc]
    by_cases hresp : response = cipher (fixDesKey authText) (challenge.take 8) ++
        cipher (fixDesKey authText) (challenge.drop 8)
    · rw [if_pos hresp]
      rw [hbuf8, hbufd8, hdt8, if_neg (by simp [hresp])]
      have h00 : SetUint32 (challenge ++ List.replicate 14 0) 0 0 =
          0 :: 0 :: 0 :: 0 :: (challenge ++ List.replicate 14 0).drop 4 := by
        rw [SetUint32_zero_eq _ 0 (by rw [hlenbuf]; norm_num)]
        norm_num
      rw [h00]
      rfl
    · rw [if_neg hresp]
      rw [hbuf8, hbufd8, hdt8, if_pos hresp]
      have h01 : SetUint32 (challenge ++ List.replicate 14 0) 0 1 =
          0 :: 0 :: 0 :: 1 :: (challenge ++ List.replicate 14 0).drop 4 := by
        rw [SetUint32_zero_eq _ 1 (by rw [hlenbuf]; norm_num)]
        norm_num
      rw [h01]
      rw [show (4 : Nat) = 3 + 1 from rfl]
      simp only [SetUint32_cons_succ]
      rw [SetUint32_zero_eq _ AUTH_FAIL.length (by simp [hc]), hAF]
      norm_num [copyAt, goCopy, hc, hAF]
      have ht22 : AUTH_FAIL.take 22 = AUTH_FAIL := rfl
      have hd30 : (challenge ++ List.replicate 14 0).drop 30 = [] := by
        rw [← hlenbuf]
        exact List.drop_length _
      rw [ht22, hd30, List.append_nil]
  · simp only [agreeSecurity, Bool.false_eq_true, if_false]
    have h00 : SetUint32 (clientSel :: 1 :: List.replicate (8 + AUTH_FAIL.length - 2) 0)
        0 0 = 0 :: 0 :: 0 :: 0 ::
          (clientSel :: 1 :: List.replicate (8 + AUTH_FAIL.length - 2) 0).drop 4 := by
      rw [SetUint32_zero_eq _ 0 (by simp [hAF])]
      norm_num
    rw [h00]
    rfl

/-- Witness for C3: with the identity block transform standing in for the
DES cipher, a matching response is accepted with SecurityResult 0 and a
mismatching response draws the failure payload. -/
theorem agreeSecurity_spec_witness :
    agreeSecurity true [112, 119] (fun _ b => b)
        [0, 1, 2, 3, 4, 5, 6, 7, 8, 9, 10, 11, 12, 13, 14, 15] 2
        [0, 1, 2, 3, 4, 5, 6, 7, 8, 9, 10, 11, 12, 13, 14, 15] =
      ([1, 2] ++ [0, 1, 2, 3, 4, 5, 6, 7, 8, 9, 10, 11, 12, 13, 14, 15] ++
        [0, 0, 0, 0], true) ∧
    agreeSecurity true [112, 119] (fun _ b => b)
        [0, 1, 2, 3, 4, 5, 6, 7, 8, 9, 10, 11, 12, 13, 14, 15] 2
        (List.replicate 16 9) =
      ([1, 2] ++ [0, 1, 2, 3, 4, 5, 6, 7, 8, 9, 10, 11, 12, 13, 14, 15] ++
        ([0, 0, 0, 1, 0, 0, 0, 22] ++ AUTH_FAIL), false) := by
  constructor
  · have h := (agreeSecurity_spec (fun _ b => b) [112, 119]
      [0, 1, 2, 3, 4, 5, 6, 7, 8, 9, 10, 11, 12, 13, 14, 15]
      [0, 1, 2, 3, 4, 5, 6, 7, 8, 9, 10, 11, 12, 13, 14, 15] 2
      (by decide) (by decide)).1
    rw [h, if_pos (by decide)]
  · have h := (agreeSecurity_spec (fun _ b => b) [112, 119]
      [0, 1, 2, 3, 4, 5, 6, 7, 8, 9, 10, 11, 12, 13, 14, 15]
      (List.replicate 16 9) 2 (by decide) (by decide)).1
    rw [h, if_neg (by decide)]

/-! ## Request loop (gorfb.go, processClientRequest) -/

/-- A handler callback invocation made by the request loop.  Encoding IDs
are carried as the Go `int` values the loop computes (`Int` here). -/
inductive Event
  | setPixelFormat (pf : PixelFormat)
  | setEncoding (encodings : List Int)
  | updateRequest (x y width height : Nat) (incremental : Bool)
  | keyEvent (key : Nat) (downflag : Bool)
  | pointerEvent (x y button : Nat)
  | cutText (text : List Nat)
  deriving DecidableEq

/-- Result of one iteration of the request loop on an input byte stream:
the handler events it raises and the unconsumed remainder, an I/O error
(the loop logs and returns, closing the connection), or a Go runtime
panic from slicing the 100-byte scratch buffer beyond its length. -/
inductive StepResult
  | ok (events : List Event) (rest : List Nat)
  | ioError
  | fault
  deriving DecidableEq

/-- Embedding of one iteration of `processClientRequest` (gorfb.go): read
the tag byte, then the exact reads and decoding the switch performs for
that tag.  Each iteration uses a fresh 100-byte zero buffer; a read of `n`
bytes into `buf[:n]` leaves the buffer holding those `n` bytes followed by
its previous contents.  `Read` is modelled as exact: it fails when the
stream holds fewer bytes than requested.  Slicing `buf[:n]` with `n`
beyond the buffer length is the `fault` outcome (tag 2 with `cnt*4 > 100`
is the only place the code can do this). -/
def processMessage (input : List Nat) : StepResult :=
  match input with
  | [] => .ioError
  | 0 :: rest =>
    if rest.length < 19 then .ioError else
      let buf := rest.take 19 ++ List.replicate 81 0
      let pf : PixelFormat :=
        ⟨buf.getD 3 0, buf.getD 4 0, buf.getD 5 0, buf.getD 6 0,
          GetUint16 buf 7, GetUint16 buf 9, GetUint16 buf 11,
          buf.getD 13 0, buf.getD 14 0, buf.getD 15 0⟩
      .ok [.setPixelFormat pf] (rest.drop 19)
  | 1 :: rest =>
    if rest.length < 6 then .ioError else
      let buf := rest.take 6 ++ List.replicate 94 0
      let cnt := GetUint16 buf 4
      let rest2 := rest.drop 6
      if rest2.length < 6 * cnt then .ioError else
        .ok [] (rest2.drop (6 * cnt))
  | 2 :: rest =>
    if rest.length < 3 then .ioError else
      let buf := rest.take 3 ++ List.replicate 97 0
      let cnt := GetUint16 buf 1
      let rest2 := rest.drop 3
      if 100 < cnt * 4 then .fault
      else if rest2.length < cnt * 4 then .ioError else
        let buf2 := rest2.take (cnt * 4) ++ buf.drop (cnt * 4)
        let encodings : List Int :=
          (List.range cnt).map fun i => (GetUint32 buf2 (i * 4) : Int)
        .ok [.setEncoding encodings] (rest2.drop (cnt * 4))
  | 3 :: rest =>
    if rest.length < 9 then .ioError else
      let buf := rest.take 9 ++ List.replicate 91 0
      .ok [.updateRequest (GetUint16 buf 1) (GetUint16 buf 3)
        (GetUint16 buf 5) (GetUint16 buf 7) (buf.getD 0 0 == 1)]
        (rest.drop 9)
  | 4 :: rest =>
    if rest.length < 7 then .ioError else
      let buf := rest.take 7 ++ List.replicate 93 0
      .ok [.keyEvent (GetUint32 buf 3) (buf.getD 0 0 == 1)] (rest.drop 7)
  | 5 :: rest =>
    if rest.length < 5 then .ioError else
      let buf := rest.take 5 ++ List.replicate 95 0
      .ok [.pointerEvent (GetUint16 buf 1) (GetUint16 buf 3) (buf.getD 0 0)]
        (rest.drop 5)
  | 6 :: rest =>
    if rest.length < 7 then .ioError else
      let buf := rest.take 7 ++ List.replicate 93 0
      let sz := GetUint32 buf 3
      let rest2 := rest.drop 7
      if rest2.length < sz then .ioError else
        .ok [.cutText (rest2.take sz)] (rest2.drop sz)
  | _ :: rest => .ok [] rest

/-- Modelled from the spec: the length of the FixColourMapEntries body
after the tag byte as §4.3 states it — 1 pad + 2 first-colour + 2 count +
6·count bytes.  (The corresponding reads are in the code, but they consume
a 6-byte header with the count taken from its offsets 4–5; this definition
is the comparison point for that divergence.) -/
def specFixColourMapBodyLen (count : Nat) : Nat := 5 + 6 * count

/-- C1 (refuted — code bug): a well-formed FixColourMapEntries message
(count 0, so a 5-byte body per the spec) followed by a valid PointerEvent.
The spec-mandated consumption leaves the stream exactly at the PointerEvent
tag, and processing that remainder dispatches the pointer event; the code
instead swallows the PointerEvent's tag byte into its 6-byte header read,
computes count 5 from the misaligned offsets 4–5, tries to read 30 further
bytes and dies with an I/O error instead of preserving framing. -/
theorem fixColourMap_framing_bug :
    processMessage ([1, 0, 0, 0, 0, 0] ++ [5, 3, 1, 144, 1, 32]) = .ioError ∧
    ([1, 0, 0, 0, 0, 0] ++ [5, 3, 1, 144, 1, 32]).drop
        (1 + specFixColourMapBodyLen 0) = [5, 3, 1, 144, 1, 32] ∧
    processMessage [5, 3, 1, 144, 1, 32] = .ok [.pointerEvent 400 288 3] [] :=
  ⟨by decide, by decide, by decide⟩

/-- Modelled from the spec: the two's-complement signed 32-bit reading of
an on-wire 4-byte value, the interpretation §6 assigns to encoding IDs. -/
def toSigned32 (v : Nat) : Int :=
  if v < 2 ^ 31 then (v : Int) else (v : Int) - 2 ^ 32

/-- C2 (refuted — code bug): a SetEncodings message carrying the single
on-wire ID ff ff ff 11 (−239, the cursor pseudo-encoding, as a signed
32-bit value) is delivered to the handler as the zero-extended unsigned
value 4294967057, because `int(GetUint32(...))` in Go zero-extends; the
signed interpretation the spec requires is −239. -/
theorem setEncodings_signed_bug :
    processMessage [2, 0, 0, 1, 255, 255, 255, 17] =
      .ok [.setEncoding [(4294967057 : Int)]] [] ∧
    toSigned32 (GetUint32 ([255, 255, 255, 17] ++ List.replicate 96 0) 0) =
      -239 ∧
    (4294967057 : Int) ≠ -239 :=
  ⟨by decide, by decide, by decide⟩

/-- C10: decoding a SetEncodings message into the fixed 100-byte scratch
buffer is free of out-of-range buffer access exactly when the count N
satisfies 4·N ≤ 100: with N ≤ 25 (and the encodings present on the
stream) the iteration completes normally, while any N > 25 makes the code
slice `buf[:4*N]` past the buffer length — a runtime panic, not a logged
protocol-error close. -/
theorem setEncodings_buffer_bound (pad b1 b2 : Nat) (rest : List Nat) :
    (25 < b1 * 256 + b2 →
      processMessage (2 :: pad :: b1 :: b2 :: rest) = .fault) ∧
    (b1 * 256 + b2 ≤ 25 → (b1 * 256 + b2) * 4 ≤ rest.length →
      ∃ evs rest2,
        processMessage (2 :: pad :: b1 :: b2 :: rest) = .ok evs rest2) := by
  have hcnt : GetUint16 (pad :: b1 :: b2 :: List.replicate 97 0) 1 =
      b1 * 256 + b2 := by
    simp only [GetUint16, List.length_cons, List.length_replicate]
    rw [if_neg (by norm_num)]
    simp
  constructor
  · intro hN
    simp only [processMessage, List.length_cons]
    rw [if_neg (by omega)]
    simp only [List.take_succ_cons, List.take_zero, List.cons_append,
      List.nil_append, hcnt]
    rw [if_pos (by omega)]
  · intro hN hlen
    simp only [processMessage, List.length_cons]
    rw [if_neg (by omega)]
    simp only [List.take_succ_cons, List.take_zero, List.cons_append,
      List.nil_append, hcnt, List.drop_succ_cons, List.drop_zero]
    rw [if_neg (by omega), if_neg (by omega)]
    exact ⟨_, _, rfl⟩

/-- Witness for C10: count 26 panics on a slice out of range; count 1 with
its four encoding bytes present decodes normally. -/
theorem setEncodings_buffer_bound_witness :
    25 < 0 * 256 + 26 ∧
    processMessage (2 :: 0 :: 0 :: 26 :: []) = .fault ∧
    0 * 256 + 1 ≤ 25 ∧
    (∃ evs rest2,
      processMessage (2 :: 0 :: 0 :: 1 :: [255, 255, 255, 17]) = .ok evs rest2) :=
  ⟨by decide, (setEncodings_buffer_bound 0 0 26 []).1 (by decide), by decide,
   (setEncodings_buffer_bound 0 0 1 [255, 255, 255, 17]).2 (by decide)
     (by decide)⟩

end Gorfb
